import Mathlib

/-!
Verification of the vmmgr address-resolution pipeline and OS template matcher.

This file shallowly embeds the relevant functions of `src/vmmgr/libvirt.py` and
`src/vmmgr/os.py` as executable Lean definitions and proves properties about
them.  Python dictionaries are embedded as association lists (`List (String ×
String)`) with first-occurrence lookup; Python `str` operations are embedded
as operations on the underlying character list (Python compares strings by code
points, which coincides with comparing `Char` values).  Python iteration over
a `set` has unspecified order; the embedding fixes first-occurrence order, and
every theorem below is independent of that choice.  Code that can raise an
uncaught exception is embedded with `Except`.
-/

namespace Vmmgr

/-! ## String helpers (embeddings of the Python `str` methods used) -/

/-- Embedding of Python `s.startswith(pre)` via the character lists. -/
def strStartsWith (s pre : String) : Bool :=
  pre.data.isPrefixOf s.data

/-- Embedding of Python `s.endswith(suf)` via the character lists. -/
def strEndsWith (s suf : String) : Bool :=
  suf.data.isSuffixOf s.data

/-- Embedding of Python `s.lower()` (ASCII case folding, as used on the
ASCII identifiers handled by the matcher). -/
def strLower (s : String) : String :=
  ⟨s.data.map Char.toLower⟩

/-- Embedding of Python `s.replace("-", "")`: remove every dash. -/
def strRemoveDashes (s : String) : String :=
  ⟨s.data.filter (fun c => c ≠ '-')⟩

/-- Embedding of Python `key.partition(".")[0]`: the part of the string
before the first dot (the whole string when there is no dot). -/
def keyId (s : String) : String :=
  ⟨s.data.takeWhile (fun c => c ≠ '.')⟩

/-- Embedding of Python `key.rpartition(".")[0]`: the part of the string
before the last dot (empty when there is no dot). -/
def rpartitionHead (s : String) : String :=
  ⟨(((s.data.reverse.dropWhile (fun c => c ≠ '.'))).drop 1).reverse⟩

/-- Embedding of Python `s.strip("/")`: drop leading and trailing slashes. -/
def stripSlashes (s : String) : String :=
  ⟨((s.data.dropWhile (fun c => c = '/')).reverse.dropWhile (fun c => c = '/')).reverse⟩

/-- Python string comparison (as used by `list.sort`) is lexicographic on code
points; `charListLe a b` embeds `a <= b` on the character lists. -/
def charListLe : List Char → List Char → Bool
  | [], _ => true
  | _ :: _, [] => false
  | a :: as, b :: bs =>
    if a.toNat < b.toNat then true
    else if b.toNat < a.toNat then false
    else charListLe as bs

/-! ## Guest-agent address extraction (`_get_domain_ip_address_guestinfo`) -/

/-- Python dictionary lookup `m.get(k)` on an association list with distinct
keys: the value at the first occurrence of the key. -/
def lookup (m : List (String × String)) (k : String) : Option String :=
  (m.find? (fun p => p.1 == k)).map (fun p => p.2)

/-- Embedding of `if_data = {k.removeprefix("if."): v for k, v in
guest_info.items() if k.startswith("if.")}`. -/
def ifData (guestInfo : List (String × String)) : List (String × String) :=
  (guestInfo.filter (fun p => strStartsWith p.1 "if.")).map
    (fun p => (⟨p.1.data.drop 3⟩, p.2))

/-- Deduplication keeping the first occurrence of each element (used to embed
iteration over the Python set `if_ids`). -/
def dedupKeepFirst (seen : List String) : List String → List String
  | [] => []
  | x :: xs =>
    if seen.contains x then dedupKeepFirst seen xs
    else x :: dedupKeepFirst (x :: seen) xs

/-- Embedding of the `if_ids` set: the part of each `if_data` key before its
first dot.  Python iterates the set in unspecified order; the embedding keeps
first-occurrence order (all theorems below are insensitive to this order). -/
def ifIds (guestInfo : List (String × String)) : List String :=
  dedupKeepFirst [] ((ifData guestInfo).map (fun p => keyId p.1))

/-- Embedding of `interface_data = {k: v for k, v in if_data.items() if
k.startswith(f"{if_id}.")}`. -/
def interfaceData (guestInfo : List (String × String)) (ifId : String) :
    List (String × String) :=
  (ifData guestInfo).filter (fun p => strStartsWith p.1 (ifId ++ "."))

/-- Embedding of the inner loop of `_get_domain_ip_address_guestinfo`: for
every key of `interface_data` ending in `".addr"`, collect the pair of its
value and the value at the sibling `".type"` key (which may be absent). -/
def pairsOfInterface (dat : List (String × String)) : List (String × Option String) :=
  (dat.filter (fun p => strEndsWith p.1 ".addr")).map
    (fun p => (p.2, lookup dat (rpartitionHead p.1 ++ ".type")))

/-- All `(address, family)` pairs collected by `_get_domain_ip_address_guestinfo`:
interfaces whose `name` value is `"lo"` are skipped, all others contribute
their `".addr"` entries. -/
def collectPairs (guestInfo : List (String × String)) : List (String × Option String) :=
  ((ifIds guestInfo).filter
      (fun i => !(lookup (ifData guestInfo) (i ++ ".name") == some "lo"))).flatMap
    (fun i => pairsOfInterface (interfaceData guestInfo i))

/-- The sort relation of `addresses.sort(key=itemgetter(1))` restricted to
comparable keys: compare the family strings by code points.  (`getD ""` is
irrelevant on the inputs where the sort does not raise; see `pySortPairs`.) -/
def famLe (p q : String × Option String) : Prop :=
  charListLe (p.2.getD "").data (q.2.getD "").data = true

instance : DecidableRel famLe := fun _ _ =>
  inferInstanceAs (Decidable (_ = true))

/-- Embedding of `addresses.sort(key=itemgetter(1))` with keys of Python type
`str | None`.  CPython raises an uncaught `TypeError` as soon as a comparison
involves `None`, which happens exactly when the list has at least two elements
and some key is `None`; otherwise the list is sorted stably and ascending by
the key string. -/
def pySortPairs (l : List (String × Option String)) :
    Except Unit (List (String × Option String)) :=
  if 2 ≤ l.length ∧ l.any (fun p => p.2.isNone) then .error ()
  else .ok (l.insertionSort famLe)

/-- Embedding of `_get_domain_ip_address_guestinfo` (the spec's
`extractAddress`): collect the pairs, sort them by family, and return the
first address, or `none` for an empty list (`IndexError` caught).  The
`Except` layer records the possible uncaught `TypeError` of the sort. -/
def getDomainIpAddressGuestinfo (guestInfo : List (String × String)) :
    Except Unit (Option String) :=
  (pySortPairs (collectPairs guestInfo)).map
    (fun sorted => sorted.head?.map (fun p => p.1))

/-- Formalisation of the spec's notion of a loopback address of any family:
an IPv4 address in `127.0.0.0/8` or the IPv6 loopback `::1`.  Used only to
state claims, never by the embedded code. -/
def isLoopbackLiteral (s : String) : Bool :=
  strStartsWith s "127." || s == "::1"

/-! ## Guest channel detection and supplementary data
(`_domain_has_guest_agent`, `_try_get_domain_guest_data`,
`_get_domain_xml_os_ids`, `_get_domain_mac_addresses`,
`_get_domain_ip_address_leases`, `_get_domain_supplementary_data`) -/

/-- A `<target>` child of a `<channel>` element: its `name` and `state`
attributes, each possibly absent. -/
structure ChannelTarget where
  name : Option String
  state : Option String
deriving DecidableEq

/-- A `<channel>` element of the domain description: its `<target>` child,
possibly absent. -/
structure Channel where
  target : Option ChannelTarget
deriving DecidableEq

/-- Embedding of `_domain_has_guest_agent`: true iff some channel has a target
whose `name` attribute (default `""`) starts with `"org.qemu.guest_agent"` and
whose `state` attribute (default `"disconnected"`) equals `"connected"`. -/
def domainHasGuestAgent (channels : List Channel) : Bool :=
  channels.any (fun c =>
    match c.target with
    | none => false
    | some t =>
      strStartsWith (t.name.getD "") "org.qemu.guest_agent" &&
        (t.state.getD "disconnected" == "connected"))

/-- The dictionary built by `_try_get_domain_guest_data` on success, and by
the fallback branch of `_get_domain_supplementary_data` (absent dictionary
keys and `None` values both map to `none`, matching `dict.get`). -/
structure SuppData where
  ip_address : Option String
  os_id : Option String
  os_version_id : Option String
deriving DecidableEq

/-- Embedding of `_try_get_domain_guest_data`.  `guestInfo?` is the result of
`domain.guestInfo()`, with `none` standing for a raised `libvirtError` (which
the function catches).  The result is `none` exactly when the code returns the
empty (falsy) dictionary; on success the returned three-key dictionary is
always truthy.  The `Except` layer propagates the possible uncaught
`TypeError` of `_get_domain_ip_address_guestinfo`. -/
def tryGetDomainGuestData (channels : List Channel)
    (guestInfo? : Option (List (String × String))) : Except Unit (Option SuppData) :=
  if !domainHasGuestAgent channels then .ok none
  else
    match guestInfo? with
    | none => .ok none
    | some gi =>
      (getDomainIpAddressGuestinfo gi).map
        (fun a => some ⟨a, lookup gi "os.id", lookup gi "os.version-id"⟩)

/-- Embedding of `_get_domain_xml_os_ids`.  `osinfoUriPath?` is the path
component (`urllib.parse.urlparse(...).path`) of the `id` attribute of the
libosinfo `<os>` element; `none` stands for a missing element, a missing
attribute, or a falsy (empty) attribute value.  The path is stripped of
slashes and split at its first slash. -/
def getDomainXmlOsIds (osinfoUriPath? : Option String) : String × String :=
  match osinfoUriPath? with
  | none => ("", "")
  | some p =>
    let s := stripSlashes p
    (keyId2 s, afterFirstSlash s)
where
  /-- Python `s.partition("/")[0]`. -/
  keyId2 (s : String) : String := ⟨s.data.takeWhile (fun c => c ≠ '/')⟩
  /-- Python `s.partition("/")[2]`. -/
  afterFirstSlash (s : String) : String := ⟨(s.data.dropWhile (fun c => c ≠ '/')).drop 1⟩

/-- Embedding of `_get_domain_mac_addresses`: the `address` attribute of every
`<interface>/<mac>` element, skipping absent and empty (falsy) values. -/
def getDomainMacAddresses : List (Option String) → List String
  | [] => []
  | none :: rest => getDomainMacAddresses rest
  | some a :: rest =>
    if a == "" then getDomainMacAddresses rest
    else a :: getDomainMacAddresses rest

/-- Embedding of `DhcpLeaseInfo` from `src/vmmgr/types.py`.  The expiry time
is kept as the raw integer timestamp (`datetime.fromtimestamp` is injective on
the values handled) and `prefixLength` is the `prefix` field. -/
structure DhcpLeaseInfo where
  mac : String
  interface : String
  client_id : String
  expiry_time : Int
  ip_address : String
  prefixLength : Nat
  hostname : Option String
deriving DecidableEq

/-- Embedding of the loop body of `_get_domain_ip_address_leases`: walk the
leases in order and keep the address of every lease whose MAC is in the
haystack set built from `macAddresses` (set membership equals list
membership). -/
def getDomainIpAddressLeases (macAddresses : List String) :
    List DhcpLeaseInfo → List String
  | [] => []
  | lease :: rest =>
    if macAddresses.contains lease.mac then
      lease.ip_address :: getDomainIpAddressLeases macAddresses rest
    else getDomainIpAddressLeases macAddresses rest

/-- The dictionary built by the fallback (lease) branch of
`_get_domain_supplementary_data`: OS ids from the static metadata when truthy,
address from the first matching lease when any. -/
def leaseBranchData (osinfoUriPath? : Option String) (macElems : List (Option String))
    (dhcpLeases : List DhcpLeaseInfo) : SuppData :=
  let ids := getDomainXmlOsIds osinfoUriPath?
  let macs := getDomainMacAddresses macElems
  let ips := getDomainIpAddressLeases macs dhcpLeases
  ⟨ips.head?,
   if ids.1 == "" then none else some ids.1,
   if ids.2 == "" then none else some ids.2⟩

/-- Embedding of `_get_domain_supplementary_data`.  The inputs are the pieces
the code reads from the domain: its channels, the live guest data (`none` for
a raised `libvirtError`), the libosinfo URI path, the `<mac>` address
attributes, and the process-wide DHCP lease snapshot.  When
`_try_get_domain_guest_data` returns a truthy dictionary it is returned
as is; otherwise the lease branch runs. -/
def getDomainSupplementaryData (channels : List Channel)
    (guestInfo? : Option (List (String × String))) (osinfoUriPath? : Option String)
    (macElems : List (Option String)) (dhcpLeases : List DhcpLeaseInfo) :
    Except Unit SuppData :=
  match tryGetDomainGuestData channels guestInfo? with
  | .error e => .error e
  | .ok (some d) => .ok d
  | .ok none => .ok (leaseBranchData osinfoUriPath? macElems dhcpLeases)

/-! ## DHCP lease fetching (`_get_dhcp_leases_for_connection`, `_get_dhcp_leases`) -/

/-- A raw lease dictionary as returned by `network.DHCPLeases()`: every field
read via `dict.get` with a default, so every field is optional. -/
structure DhcpRawLease where
  mac : Option String
  iface : Option String
  clientid : Option String
  expirytime : Option Int
  ipaddr : Option String
  prefixLen : Option Nat
  hostname : Option String
deriving DecidableEq

/-- Embedding of the `DhcpLeaseInfo(...)` construction inside
`_get_dhcp_leases_for_connection`, with the `dict.get` defaults. -/
def parseDhcpLease (r : DhcpRawLease) : DhcpLeaseInfo :=
  { mac := r.mac.getD ""
    interface := r.iface.getD ""
    client_id := r.clientid.getD ""
    expiry_time := r.expirytime.getD 0
    ip_address := r.ipaddr.getD ""
    prefixLength := r.prefixLen.getD 0
    hostname := r.hostname }

/-- Embedding of the nested loop of `_get_dhcp_leases_for_connection` over the
networks of one connection: parse every network's leases in order. -/
def collectConnectionLeases : List (List DhcpRawLease) → List DhcpLeaseInfo
  | [] => []
  | net :: rest => net.map parseDhcpLease ++ collectConnectionLeases rest

/-- Embedding of `_get_dhcp_leases_for_connection`.  `openConn` models
`libvirt.open`: it returns the networks (each a list of raw leases) of the
connection at a URI, or `none` when opening raises `libvirtError`, which the
function catches by returning the empty list. -/
def getDhcpLeasesForConnection (openConn : String → Option (List (List DhcpRawLease)))
    (uri : String) : List DhcpLeaseInfo :=
  match openConn uri with
  | none => []
  | some networks => collectConnectionLeases networks

/-- Embedding of `_get_dhcp_leases`: chain the per-connection lease lists over
the configured URIs, in order. -/
def getDhcpLeases (openConn : String → Option (List (List DhcpRawLease))) :
    List String → List DhcpLeaseInfo
  | [] => []
  | uri :: rest => getDhcpLeasesForConnection openConn uri ++ getDhcpLeases openConn rest

/-! ## OS template matching (`_match_osinfo` from `src/vmmgr/os.py`) -/

/-- Embedding of `VirtInspectorData` from `src/vmmgr/types.py`: five optional
string fields, defaulting to `None`. -/
structure VirtInspectorData where
  osinfo : Option String := none
  distro : Option String := none
  major_version : Option String := none
  minor_version : Option String := none
  name : Option String := none
deriving DecidableEq

/-- Python truthiness of an `str | None` value: `None` and `""` are falsy. -/
def truthyStr : Option String → Bool
  | none => false
  | some s => !(s == "")

/-- Python f-string interpolation of an `str | None` value: `None` is
rendered as the literal string `"None"`. -/
def fmtOpt : Option String → String
  | none => "None"
  | some s => s

/-- The five candidate identifiers built from inspection data in
`_match_osinfo` (absent versions are interpolated as `"None"`). -/
def step2Candidates (distro : String) (major minor : Option String) : List String :=
  [distro ++ fmtOpt major ++ "." ++ fmtOpt minor,
   distro ++ fmtOpt major,
   distro ++ fmtOpt major ++ "-unknown",
   distro,
   distro ++ "-unknown"]

/-- Embedding of the inspection-data part of `_match_osinfo` (its first two
`return` opportunities): a verbatim `osinfo` hit, else the first hit among
the distro-based candidates; `none` when neither yields a return. -/
def matchInspection (known : List String) (d : VirtInspectorData) : Option String :=
  if truthyStr d.osinfo && known.contains (d.osinfo.getD "") then d.osinfo
  else
    match d.distro with
    | none => none
    | some distro =>
      if distro == "" then none
      else (step2Candidates distro d.major_version d.minor_version).find?
        (fun c => known.contains c)

/-- One iteration of the `while file_name:` loop of `_match_osinfo`: build the
four candidates from the current name, lowercase each, and return the first
that is literally a member of `known`. -/
def fileNameHit (known : List String) (s : String) : Option String :=
  ([s, s ++ "-unknown", strRemoveDashes s, strRemoveDashes s ++ "-unknown"].map
      strLower).find? (fun c => known.contains c)

/-- The `while file_name:` loop of `_match_osinfo`, in terms of the reversed
character list of the current file name: removing the last character of the
name is removing the head of the reversed list. -/
def fileNameLoop (known : List String) : List Char → Option String
  | [] => none
  | c :: rest =>
    match fileNameHit known ⟨(c :: rest).reverse⟩ with
    | some r => some r
    | none => fileNameLoop known rest

/-- Embedding of `_match_osinfo`: inspection data first (an always-truthy
dataclass instance when present), then the shrinking file-name loop, then the
`"linux"` kernel sentinel, then `"unknown"`. -/
def matchOsinfo (known : List String) (vid? : Option VirtInspectorData)
    (fileName : String) : String :=
  match (match vid? with
         | none => none
         | some d => matchInspection known d) with
  | some r => r
  | none =>
    match fileNameLoop known fileName.data.reverse with
    | some r => r
    | none =>
      match vid? with
      | some d => if d.name == some "linux" then "linux2024" else "unknown"
      | none => "unknown"

/-- The descending list of nonempty truncations of a name used to describe the
`while file_name:` loop declaratively: the name, then the name one character
shorter, and so on down to one character.  Stated from the spec's words for
comparison with the loop. -/
def descendingTruncations (l : List Char) : List String :=
  (List.range l.length).map (fun i => ⟨l.take (l.length - i)⟩)

/-! ## Concrete inputs used by witnesses and counterexamples -/

/-- A well-formed guest-info map: one non-loopback interface with one IPv4
and one IPv6 address, plus agent OS keys. -/
def exGuestInfo : List (String × String) :=
  [("if.0.name", "eth0"), ("if.0.addr.0.addr", "10.0.0.5"),
   ("if.0.addr.0.type", "ipv4"), ("if.0.addr.1.addr", "fe80::1"),
   ("if.0.addr.1.type", "ipv6"), ("os.id", "fedora"), ("os.version-id", "41")]

/-- A guest-info map reporting the IPv4 loopback address on an interface
named `eth0`. -/
def exLoopbackGuestInfo : List (String × String) :=
  [("if.0.name", "eth0"), ("if.0.addr.0.addr", "127.0.0.1"),
   ("if.0.addr.0.type", "ipv4")]

/-- A malformed guest-info map: the entry `if.0.addr.0.addr` has no sibling
`if.0.addr.0.type` key, while a second entry is fully typed. -/
def exMalformedGuestInfo : List (String × String) :=
  [("if.0.name", "eth0"), ("if.0.addr.0.addr", "1.2.3.4"),
   ("if.0.addr.1.addr", "5.6.7.8"), ("if.0.addr.1.type", "ipv4")]

/-- A channel list with a connected qemu guest-agent channel. -/
def exChannels : List Channel :=
  [⟨some ⟨some "org.qemu.guest_agent.0", some "connected"⟩⟩]

/-- A concrete DHCP lease. -/
def exLease : DhcpLeaseInfo :=
  ⟨"52:54:00:aa:bb:cc", "virbr0", "01:52:54:00:aa:bb:cc", 1700000000,
   "192.168.122.34", 24, some "testvm"⟩

/-- A second concrete DHCP lease with a different MAC. -/
def exLease2 : DhcpLeaseInfo :=
  ⟨"52:54:00:dd:ee:ff", "virbr0", "01:52:54:00:dd:ee:ff", 1700000100,
   "192.168.122.35", 24, none⟩

/-- A concrete raw lease dictionary. -/
def exRawLease : DhcpRawLease :=
  ⟨some "52:54:00:aa:bb:cc", some "virbr0", none, some 1700000000,
   some "192.168.122.34", some 24, none⟩

/-- A connection-opening environment: one reachable URI with a single network
holding one lease; every other URI fails to open. -/
def exOpenConn (uri : String) : Option (List (List DhcpRawLease)) :=
  if uri == "qemu:///system" then some [[exRawLease]] else none

/-! ## Order lemmas for the sort relation -/

theorem charListLe_total : ∀ a b : List Char, charListLe a b = true ∨ charListLe b a = true
  | [], _ => Or.inl rfl
  | _ :: _, [] => Or.inr rfl
  | a :: as, b :: bs => by
    simp only [charListLe]
    rcases Nat.lt_trichotomy a.toNat b.toNat with h | h | h
    · left
      simp [h]
    · rcases charListLe_total as bs with ih | ih
      · left
        simp [h, Nat.lt_irrefl, ih]
      · right
        simp [h, Nat.lt_irrefl, ih]
    · right
      simp [h]

theorem charListLe_cons {a b : Char} {as bs : List Char} :
    charListLe (a :: as) (b :: bs) = true ↔
      a.toNat < b.toNat ∨ (a.toNat = b.toNat ∧ charListLe as bs = true) := by
  simp only [charListLe]
  by_cases h1 : a.toNat < b.toNat
  · simp [h1]
  · by_cases h2 : b.toNat < a.toNat
    · simp [h1, h2]
      omega
    · have heq : a.toNat = b.toNat := by omega
      simp [h1, h2, heq]

theorem charListLe_trans :
    ∀ a b c : List Char, charListLe a b = true → charListLe b c = true →
      charListLe a c = true
  | [], _, _, _, _ => rfl
  | _ :: _, [], _, hab, _ => by simp [charListLe] at hab
  | _ :: _, _ :: _, [], _, hbc => by simp [charListLe] at hbc
  | a :: as, b :: bs, c :: cs, hab, hbc => by
    rw [charListLe_cons] at hab hbc ⊢
    rcases hab with h1 | ⟨h1, h1t⟩
    · rcases hbc with h2 | ⟨h2, _⟩
      · left
        omega
      · left
        omega
    · rcases hbc with h2 | ⟨h2, h2t⟩
      · left
        omega
      · right
        exact ⟨by omega, charListLe_trans as bs cs h1t h2t⟩

theorem famLe_isTotal : IsTotal (String × Option String) famLe :=
  ⟨fun _ _ => charListLe_total _ _⟩

theorem famLe_isTrans : IsTrans (String × Option String) famLe :=
  ⟨fun _ _ _ => charListLe_trans _ _ _⟩

/-! ## Catalog membership of the matcher result -/

theorem matchInspection_mem {known : List String} {d : VirtInspectorData} {r : String}
    (h : matchInspection known d = some r) : r ∈ known := by
  unfold matchInspection at h
  split at h
  · next hc =>
    rw [Bool.and_eq_true] at hc
    obtain ⟨ht, hm⟩ := hc
    cases hos : d.osinfo with
    | none => rw [hos] at h; exact absurd h (by simp)
    | some o =>
      rw [hos] at h hm
      cases h
      simpa using List.elem_iff.mp hm
  · split at h
    · exact absurd h (by simp)
    · next distro =>
      split at h
      · exact absurd h (by simp)
      · have hp : known.contains r = true := List.find?_some h
        exact List.elem_iff.mp hp

theorem fileNameHit_mem {known : List String} {s : String} {r : String}
    (h : fileNameHit known s = some r) : r ∈ known := by
  have hp : known.contains r = true := List.find?_some h
  exact List.elem_iff.mp hp

theorem fileNameLoop_mem {known : List String} {r : String} :
    ∀ {l : List Char}, fileNameLoop known l = some r → r ∈ known
  | [], h => absurd h (by simp [fileNameLoop])
  | c :: rest, h => by
    rw [fileNameLoop] at h
    split at h
    · next hh => cases h; exact fileNameHit_mem hh
    · exact fileNameLoop_mem h

/-- The result of `_match_osinfo` is always a member of the known-identifier
catalog, the sentinel `"linux2024"`, or the sentinel `"unknown"`. -/
theorem matchOsinfo_mem (known : List String) (vid? : Option VirtInspectorData)
    (fileName : String) :
    matchOsinfo known vid? fileName ∈ known ∨
      matchOsinfo known vid? fileName = "linux2024" ∨
      matchOsinfo known vid? fileName = "unknown" := by
  unfold matchOsinfo
  split
  · next r h =>
    left
    cases hv : vid? with
    | none => rw [hv] at h; exact absurd h (by simp)
    | some d => rw [hv] at h; exact matchInspection_mem h
  · split
    · next r h => exact Or.inl (fileNameLoop_mem h)
    · split
      · split
        · exact Or.inr (Or.inl rfl)
        · exact Or.inr (Or.inr rfl)
      · exact Or.inr (Or.inr rfl)

/-- C10: for every knownIds list, every optional inspection record and every
file base name, the value returned by `_match_osinfo` is either a member of
knownIds, or the sentinel `"linux2024"`, or `"unknown"` — the matcher never
invents an identifier outside the catalog other than these two sentinels. -/
theorem c10_result_in_catalog_or_sentinel (known : List String)
    (vid? : Option VirtInspectorData) (fileName : String) :
    matchOsinfo known vid? fileName ∈ known ∨
      matchOsinfo known vid? fileName = "linux2024" ∨
      matchOsinfo known vid? fileName = "unknown" :=
  matchOsinfo_mem known vid? fileName

/-- C4, counterexample: with the empty string as a catalog member and the file
base name `"-"`, `_match_osinfo` returns the empty string, so the claim that
the result is always non-empty fails as stated. -/
theorem c4_counterexample : matchOsinfo [""] none "-" = "" := by decide

/-- C4, amended: `_match_osinfo` is total (it is a Lean function, hence never
raises) and its result is non-empty whenever the empty string is not itself a
member of knownIds; `"unknown"` is a valid terminal value, never an error. -/
theorem c4_amended_nonempty (known : List String) (vid? : Option VirtInspectorData)
    (fileName : String) (h : "" ∉ known) :
    matchOsinfo known vid? fileName ≠ "" := by
  rcases matchOsinfo_mem known vid? fileName with hm | he | he
  · intro hc
    exact h (hc ▸ hm)
  · rw [he]
    decide
  · rw [he]
    decide

/-- C4, witness: the amended theorem applied at the empty catalog, absent
record, empty name, where the result is `"unknown"`. -/
theorem c4_amended_nonempty_witness :
    ("" ∉ ([] : List String)) ∧ matchOsinfo [] none "" = "unknown" ∧
      matchOsinfo [] none "" ≠ "" :=
  ⟨by decide, by decide, c4_amended_nonempty [] none "" (by decide)⟩

/-- C3, counterexample: with minor version absent, the first candidate built
by `_match_osinfo` interpolates Python `None` as the literal `"None"`
(`"fedora43.None"`), a candidate the claimed list (segments simply omitted)
does not contain, and it can be returned. -/
theorem c3_counterexample :
    matchOsinfo ["fedora43.None"]
        (some { distro := some "fedora", major_version := some "43" }) "" =
      "fedora43.None" ∧
      "fedora43.None" ∉ ["fedora43", "fedora43-unknown", "fedora", "fedora-unknown"] := by
  constructor
  · decide
  · decide

/-- C3, amended: for an inspection record with distro present, major present
and minor absent, step 2 scans the candidates `[distro+major+".None",
distro+major, distro+major+"-unknown", distro, distro+"-unknown"]` (the absent
minor is interpolated as the literal `"None"`, not omitted) and returns the
first member of knownIds, falling through to `"unknown"` on an empty file
name and absent kernel name. -/
theorem c3_amended_candidates (known : List String) (d m : String) (h : d ≠ "") :
    matchOsinfo known
        (some { distro := some d, major_version := some m }) "" =
      (([d ++ m ++ ".None", d ++ m, d ++ m ++ "-unknown", d, d ++ "-unknown"].find?
          (fun c => known.contains c)).getD "unknown") := by
  have hd : (d == "") = false := beq_eq_false_iff_ne.mpr h
  unfold matchOsinfo matchInspection
  simp only [truthyStr, Bool.false_and, Bool.if_false_left]
  rw [if_neg (by simp)]
  simp only [hd, Bool.false_eq_true, if_false]
  have hcand : step2Candidates d (some m) none =
      [d ++ m ++ ".None", d ++ m, d ++ m ++ "-unknown", d, d ++ "-unknown"] := by
    simp only [step2Candidates, fmtOpt, String.append_assoc]
    rfl
  rw [hcand]
  cases hf : List.find? (fun c => known.contains c)
      [d ++ m ++ ".None", d ++ m, d ++ m ++ "-unknown", d, d ++ "-unknown"] with
  | none => simp [hf, fileNameLoop]
  | some r => simp [hf]

/-- C3, witness: at the claim's concrete input the amended scan yields
`"fedora-unknown"`. -/
theorem c3_amended_candidates_witness :
    ("fedora" : String) ≠ "" ∧
      matchOsinfo ["fedora41", "fedora42", "fedora-unknown"]
          (some { distro := some "fedora", major_version := some "43" }) "" =
        "fedora-unknown" := by
  refine ⟨by decide, ?_⟩
  rw [c3_amended_candidates ["fedora41", "fedora42", "fedora-unknown"] "fedora" "43"
    (by decide)]
  decide

/-! ## The file-name loop as a search over descending truncations -/

theorem descendingTruncations_snoc (l : List Char) (c : Char) :
    descendingTruncations (l ++ [c]) =
      (⟨l ++ [c]⟩ : String) :: descendingTruncations l := by
  unfold descendingTruncations
  rw [List.length_append, List.length_cons, List.length_nil, Nat.zero_add,
    List.range_succ_eq_map]
  rw [List.map_cons, List.map_map]
  congr 1
  · rw [Nat.sub_zero]
    congr 1
    have hlen : l.length + 1 = (l ++ [c]).length := by simp
    rw [hlen]
    exact List.take_length (l ++ [c])
  · apply List.map_congr_left
    intro i _
    simp only [Function.comp_apply]
    congr 1
    have h1 : l.length + 1 - Nat.succ i = l.length - i := by omega
    rw [h1]
    exact List.take_append_of_le_length (Nat.sub_le l.length i)

theorem fileNameLoop_eq_truncations (known : List String) :
    ∀ rev : List Char,
      fileNameLoop known rev =
        (descendingTruncations rev.reverse).findSome? (fileNameHit known)
  | [] => by
    simp [fileNameLoop, descendingTruncations]
  | c :: rest => by
    rw [fileNameLoop]
    have hrev : (c :: rest).reverse = rest.reverse ++ [c] := List.reverse_cons c rest
    rw [hrev, descendingTruncations_snoc, List.findSome?_cons]
    cases hh : fileNameHit known ⟨rest.reverse ++ [c]⟩ with
    | none => simp [hh, fileNameLoop_eq_truncations known rest]
    | some r => simp [hh]

/-- C8, counterexample: the loop tests the lowercased candidate for literal
membership in knownIds, so a catalog entry differing only in case is never
hit: with catalog `["FEDORA"]` and name `"fedora"`, a case-insensitive test
of the candidate `"fedora"` against the catalog would succeed (the lowercase
foldings coincide), yet the matcher returns `"unknown"`. -/
theorem c8_counterexample :
    matchOsinfo ["FEDORA"] none "fedora" = "unknown" ∧
      strLower "fedora" = strLower "FEDORA" := by
  constructor
  · decide
  · decide

/-- C8, amended: when inspection data yields no match, step 3 shrinks the
name one trailing character at a time from full length down to empty and at
each length tests the four candidates `[name, name+"-unknown",
name-without-dashes, name-without-dashes+"-unknown"]`, each lowercased, for
literal membership in knownIds (knownIds entries are compared verbatim, so
the test is case-insensitive only in the candidate), returning the first hit
of the full nested search; in particular the claim's concrete example returns
`"fedora-unknown"`. -/
theorem c8_amended_truncation_search :
    (∀ (known : List String) (fileName : String),
        matchOsinfo known none fileName =
          ((descendingTruncations fileName.data).findSome? (fileNameHit known)).getD
            "unknown") ∧
      matchOsinfo ["fedora41", "fedora42", "fedora-unknown"] none
          "fedora-latest-x86_64-kvm.qcow2" =
        "fedora-unknown" := by
  constructor
  · intro known fileName
    unfold matchOsinfo
    rw [fileNameLoop_eq_truncations known fileName.data.reverse,
      List.reverse_reverse]
    cases hf : (descendingTruncations fileName.data).findSome? (fileNameHit known) with
    | none => simp [hf]
    | some r => simp [hf]
  · decide

/-! ## Uncaught TypeError in the guest-info sort (C6) -/

/-- C6: the code evaluated at the failing input.  On a guest-info map where
an `if.N.addr.M.addr` key has no corresponding `if.N.addr.M.type` key and at
least one other address entry exists, `_get_domain_ip_address_guestinfo`
raises an uncaught `TypeError` from `addresses.sort(key=itemgetter(1))`
(`None` is not ordered against `str`), instead of treating the malformed
input like an unavailable source. -/
theorem c6_malformed_input_raises :
    getDomainIpAddressGuestinfo exMalformedGuestInfo = .error () := rfl

/-! ## Where extracted addresses come from (C1) -/

/-- C1, counterexample: a guest map reporting the IPv4 loopback address on an
interface named `eth0` makes the pipeline resolve the loopback address — only
the interface literally named `"lo"` is skipped, the address value itself is
never checked. -/
theorem c1_counterexample :
    getDomainIpAddressGuestinfo exLoopbackGuestInfo = .ok (some "127.0.0.1") ∧
      isLoopbackLiteral "127.0.0.1" = true :=
  ⟨rfl, by decide⟩

/-- C1, amended: a resolved guest address always originates from an interface
whose recorded name is not `"lo"`, and a lease-path address is always the
address of a lease whose MAC matched — but neither path filters loopback
address values themselves. -/
theorem c1_amended_address_origin :
    (∀ (gi : List (String × String)) (a : String),
        getDomainIpAddressGuestinfo gi = .ok (some a) →
          ∃ i ∈ ifIds gi,
            lookup (ifData gi) (i ++ ".name") ≠ some "lo" ∧
              ∃ t, (a, t) ∈ pairsOfInterface (interfaceData gi i)) ∧
      (∀ (macs : List String) (leases : List DhcpLeaseInfo) (x : String),
          x ∈ getDomainIpAddressLeases macs leases →
            ∃ l ∈ leases, l.ip_address = x ∧ l.mac ∈ macs) := by
  constructor
  · intro gi a h
    unfold getDomainIpAddressGuestinfo pySortPairs at h
    split at h
    · exact absurd h (by simp [Except.map])
    · simp only [Except.map] at h
      obtain ⟨p, hp, hpa⟩ := Option.map_eq_some'.mp (Except.ok.inj h)
      have hmem : p ∈ (collectPairs gi).insertionSort famLe :=
        List.mem_of_mem_head? hp
      rw [List.mem_insertionSort] at hmem
      unfold collectPairs at hmem
      obtain ⟨i, hi, hpi⟩ := List.mem_flatMap.mp hmem
      obtain ⟨hiIds, hpred⟩ := List.mem_filter.mp hi
      refine ⟨i, hiIds, ?_, p.2, ?_⟩
      · intro hlo
        rw [Bool.not_eq_true', beq_eq_false_iff_ne] at hpred
        exact hpred hlo
      · rw [← hpa]
        exact hpi
  · intro macs leases
    induction leases with
    | nil => intro x hx; exact absurd hx (by simp [getDomainIpAddressLeases])
    | cons l rest ih =>
      intro x hx
      rw [getDomainIpAddressLeases] at hx
      split at hx
      · next hcont =>
        rcases List.mem_cons.mp hx with hx | hx
        · exact ⟨l, List.mem_cons_self l rest, hx.symm, List.elem_iff.mp hcont⟩
        · obtain ⟨l2, hl2, he⟩ := ih x hx
          exact ⟨l2, List.mem_cons_of_mem l hl2, he⟩
      · obtain ⟨l2, hl2, he⟩ := ih x hx
        exact ⟨l2, List.mem_cons_of_mem l hl2, he⟩

/-- C1, witness: the amended theorem applied to a concrete well-formed guest
map and a concrete matching lease. -/
theorem c1_amended_address_origin_witness :
    (∃ i ∈ ifIds exGuestInfo,
        lookup (ifData exGuestInfo) (i ++ ".name") ≠ some "lo" ∧
          ∃ t, ("10.0.0.5", t) ∈ pairsOfInterface (interfaceData exGuestInfo i)) ∧
      (∃ l ∈ [exLease], l.ip_address = "192.168.122.34" ∧
          l.mac ∈ ["52:54:00:aa:bb:cc"]) :=
  ⟨c1_amended_address_origin.1 exGuestInfo "10.0.0.5" rfl,
   c1_amended_address_origin.2 ["52:54:00:aa:bb:cc"] [exLease] "192.168.122.34"
     (by decide)⟩

/-! ## IPv4 preference of the guest-info sort (C5) -/

theorem extract_head_ipv4 (gi : List (String × String)) (b : String)
    (hfam : ∀ p ∈ collectPairs gi, p.2 = some "ipv4" ∨ p.2 = some "ipv6")
    (hb : (b, some "ipv4") ∈ collectPairs gi) :
    ∃ p : String × Option String, p ∈ collectPairs gi ∧ p.2 = some "ipv4" ∧
      getDomainIpAddressGuestinfo gi = .ok (some p.1) := by
  have hnone : (collectPairs gi).any (fun p => p.2.isNone) = false := by
    rw [List.any_eq_false]
    intro p hp
    rcases hfam p hp with h | h <;> simp [h]
  have hes : ((b, some "ipv4") : String × Option String) ∈
      (collectPairs gi).insertionSort famLe :=
    (List.mem_insertionSort famLe).mpr hb
  unfold getDomainIpAddressGuestinfo pySortPairs
  rw [if_neg (by rw [hnone]; simp)]
  simp only [Except.map]
  cases hs : (collectPairs gi).insertionSort famLe with
  | nil => rw [hs] at hes; exact absurd hes (by simp)
  | cons p t =>
    have hpmem : p ∈ collectPairs gi := by
      have : p ∈ (collectPairs gi).insertionSort famLe := by
        rw [hs]
        exact List.mem_cons_self p t
      exact (List.mem_insertionSort famLe).mp this
    refine ⟨p, hpmem, ?_, by simp⟩
    rcases hfam p hpmem with hp4 | hp6
    · exact hp4
    · exfalso
      haveI := famLe_isTotal
      haveI := famLe_isTrans
      have hsorted : List.Sorted famLe ((collectPairs gi).insertionSort famLe) :=
        List.sorted_insertionSort famLe (collectPairs gi)
      rw [hs] at hsorted hes
      rcases List.mem_cons.mp hes with heq | het
      · have : (some "ipv4" : Option String) = some "ipv6" := by
          rw [← heq] at hp6
          exact hp6
        simp at this
      · have hrel : famLe p (b, some "ipv4") :=
          List.rel_of_sorted_cons hsorted _ het
        unfold famLe at hrel
        rw [hp6] at hrel
        have hrel2 : charListLe "ipv6".data "ipv4".data = true := hrel
        exact absurd hrel2 (by decide)

/-- C5: for every guest map whose collected candidate pairs all carry family
`"ipv4"` or `"ipv6"`, the presence of an IPv4 pair makes the extracted
address an IPv4 one (the pairs are sorted ascending by the family-name
string, and `"ipv4"` sorts strictly before `"ipv6"`), and when the IPv4 pair
is unique — the claim's "the IPv4 address" — exactly its address is
extracted. -/
theorem c5_ipv4_preferred (gi : List (String × String))
    (hfam : ∀ p ∈ collectPairs gi, p.2 = some "ipv4" ∨ p.2 = some "ipv6") :
    (∀ b, (b, some "ipv4") ∈ collectPairs gi →
        ∃ a, getDomainIpAddressGuestinfo gi = .ok (some a) ∧
          (a, some "ipv4") ∈ collectPairs gi) ∧
    (∀ a, (collectPairs gi).filter (fun p => p.2 == some "ipv4") =
        [(a, some "ipv4")] →
      getDomainIpAddressGuestinfo gi = .ok (some a)) := by
  constructor
  · intro b hb
    obtain ⟨p, hpmem, hp4, hres⟩ := extract_head_ipv4 gi b hfam hb
    refine ⟨p.1, hres, ?_⟩
    have hp : p = (p.1, (some "ipv4" : Option String)) := by
      rw [← hp4]
    rw [← hp]
    exact hpmem
  · intro a h4
    have hb : ((a, some "ipv4") : String × Option String) ∈ collectPairs gi := by
      have hm : ((a, some "ipv4") : String × Option String) ∈
          (collectPairs gi).filter (fun p => p.2 == some "ipv4") := by
        rw [h4]
        exact List.mem_singleton.mpr rfl
      exact (List.mem_filter.mp hm).1
    obtain ⟨p, hpmem, hp4, hres⟩ := extract_head_ipv4 gi a hfam hb
    have hpf : p ∈ (collectPairs gi).filter (fun p => p.2 == some "ipv4") :=
      List.mem_filter.mpr ⟨hpmem, by simp [hp4]⟩
    rw [h4] at hpf
    have hpa : p.1 = a := by
      rw [List.mem_singleton.mp hpf]
    rw [← hpa]
    exact hres

/-- C5, witness: a guest map with one IPv4 and one IPv6 address on the same
non-loopback interface resolves to the IPv4 address. -/
theorem c5_ipv4_preferred_witness :
    ((collectPairs exGuestInfo).filter (fun p => p.2 == some "ipv4") =
        [("10.0.0.5", some "ipv4")]) ∧
      getDomainIpAddressGuestinfo exGuestInfo = .ok (some "10.0.0.5") :=
  ⟨by decide,
   (c5_ipv4_preferred exGuestInfo (by decide)).2 "10.0.0.5" (by decide)⟩

/-! ## Lease correlation (C7) -/

theorem getDomainIpAddressLeases_eq (macs : List String) :
    ∀ leases : List DhcpLeaseInfo,
      getDomainIpAddressLeases macs leases =
        (leases.filter (fun l => macs.contains l.mac)).map (fun l => l.ip_address)
  | [] => rfl
  | l :: rest => by
    rw [getDomainIpAddressLeases]
    cases h : macs.contains l.mac with
    | true =>
      have h2 : l.mac ∈ macs := List.elem_iff.mp h
      simp [List.filter_cons, h, h2, getDomainIpAddressLeases_eq macs rest]
    | false =>
      have h2 : l.mac ∉ macs := by
        intro hm
        have hc : macs.contains l.mac = true := List.elem_iff.mpr hm
        rw [h] at hc
        cases hc
      simp [List.filter_cons, h, h2, getDomainIpAddressLeases_eq macs rest]

theorem contains_singleton (x y : String) : ([y].contains x) = (x == y) := by
  cases h : x == y <;> simp [List.contains, List.elem, h]

/-- C7: `_get_domain_ip_address_leases` returns exactly the addresses of the
leases whose MAC is in the given set, preserving lease-list order and keeping
duplicates; with empty intersection the result is empty, and a MAC occurring
in exactly one lease yields exactly that lease's address. -/
theorem c7_match_by_mac (macs : List String) (leases : List DhcpLeaseInfo) :
    getDomainIpAddressLeases macs leases =
      (leases.filter (fun l => macs.contains l.mac)).map (fun l => l.ip_address) ∧
    ((∀ l ∈ leases, l.mac ∉ macs) → getDomainIpAddressLeases macs leases = []) ∧
    (∀ l : DhcpLeaseInfo,
        leases.filter (fun x => x.mac == l.mac) = [l] →
          getDomainIpAddressLeases [l.mac] leases = [l.ip_address]) := by
  refine ⟨getDomainIpAddressLeases_eq macs leases, ?_, ?_⟩
  · intro h
    rw [getDomainIpAddressLeases_eq]
    have hf : leases.filter (fun l => macs.contains l.mac) = [] := by
      rw [List.filter_eq_nil_iff]
      intro l hl
      intro hc
      exact h l hl (List.elem_iff.mp hc)
    rw [hf]
    rfl
  · intro l hone
    rw [getDomainIpAddressLeases_eq]
    have hf : leases.filter (fun x => [l.mac].contains x.mac) =
        leases.filter (fun x => x.mac == l.mac) :=
      List.filter_congr (fun x _ => contains_singleton x.mac l.mac)
    rw [hf, hone]
    rfl

/-- C7, witness: one matching and one non-matching lease, and the two special
cases at concrete inputs. -/
theorem c7_match_by_mac_witness :
    getDomainIpAddressLeases ["52:54:00:aa:bb:cc"] [exLease2, exLease, exLease] =
      ["192.168.122.34", "192.168.122.34"] ∧
    getDomainIpAddressLeases ["02:00:00:00:00:01"] [exLease, exLease2] = [] ∧
    getDomainIpAddressLeases [exLease.mac] [exLease, exLease2] =
      [exLease.ip_address] := by
  refine ⟨by decide, ?_, ?_⟩
  · exact (c7_match_by_mac ["02:00:00:00:00:01"] [exLease, exLease2]).2.1
      (by decide)
  · exact (c7_match_by_mac [exLease.mac] [exLease, exLease2]).2.2 exLease (by decide)

/-! ## Independent per-connection lease fetching (C9) -/

theorem getDhcpLeases_flatten (openConn : String → Option (List (List DhcpRawLease))) :
    ∀ uris : List String,
      getDhcpLeases openConn uris =
        (uris.map (fun u => getDhcpLeasesForConnection openConn u)).flatten
  | [] => rfl
  | uri :: rest => by
    rw [getDhcpLeases, List.map_cons, List.flatten_cons,
      getDhcpLeases_flatten openConn rest]

/-- C9: `_get_dhcp_leases` attempts each connection independently — a URI
whose connection open fails contributes an empty partial result for that URI
only and never aborts the whole fetch — and the final result is the
concatenation of the per-URI lease lists in URI order. -/
theorem c9_independent_connections
    (openConn : String → Option (List (List DhcpRawLease))) (uris : List String) :
    getDhcpLeases openConn uris =
      (uris.map (fun u => getDhcpLeasesForConnection openConn u)).flatten ∧
    (∀ u, openConn u = none → getDhcpLeasesForConnection openConn u = []) := by
  refine ⟨getDhcpLeases_flatten openConn uris, ?_⟩
  intro u hu
  rw [getDhcpLeasesForConnection, hu]

/-- C9, witness: one reachable and one unreachable URI; the unreachable URI
contributes an empty list and the fetch still returns the reachable URI's
parsed lease. -/
theorem c9_independent_connections_witness :
    exOpenConn "qemu:///session" = none ∧
    getDhcpLeasesForConnection exOpenConn "qemu:///session" = [] ∧
    getDhcpLeases exOpenConn ["qemu:///system", "qemu:///session"] =
      [parseDhcpLease exRawLease] :=
  ⟨rfl,
   (c9_independent_connections exOpenConn []).2 "qemu:///session" rfl,
   by decide⟩

/-! ## Exclusive source families per VM (C2) -/

/-- C2: when the guest channel is connected and the agent query succeeds,
`_get_domain_supplementary_data` returns exactly the guest-derived data
(address from `_get_domain_ip_address_guestinfo`, OS ids from the agent keys)
for every lease snapshot, static OS descriptor and MAC list — so the
lease-correlation path is never consulted; otherwise it returns exactly the
lease-branch data, which is built only from the static metadata and the
leases.  Exactly one source family is used per VM and results are never
merged. -/
theorem c2_exclusive_source_family (channels : List Channel)
    (gi : List (String × String)) (osPath? : Option String)
    (macElems : List (Option String)) (leases : List DhcpLeaseInfo) :
    (domainHasGuestAgent channels = true →
      getDomainSupplementaryData channels (some gi) osPath? macElems leases =
        (getDomainIpAddressGuestinfo gi).map
          (fun a => ⟨a, lookup gi "os.id", lookup gi "os.version-id"⟩)) ∧
    (∀ guestInfo?,
        domainHasGuestAgent channels = false ∨ guestInfo? = none →
          getDomainSupplementaryData channels guestInfo? osPath? macElems leases =
            .ok (leaseBranchData osPath? macElems leases)) := by
  constructor
  · intro h
    cases hres : getDomainIpAddressGuestinfo gi with
    | error e =>
      simp [getDomainSupplementaryData, tryGetDomainGuestData, h, hres, Except.map]
    | ok v =>
      simp [getDomainSupplementaryData, tryGetDomainGuestData, h, hres, Except.map]
  · intro guestInfo? hcase
    rcases hcase with h | h
    · simp [getDomainSupplementaryData, tryGetDomainGuestData, h]
    · rw [h]
      cases hagent : domainHasGuestAgent channels <;>
        simp [getDomainSupplementaryData, tryGetDomainGuestData, hagent]

/-- C2, witness: a connected channel and successful agent query yield purely
guest-derived data regardless of the lease snapshot. -/
theorem c2_exclusive_source_family_witness :
    domainHasGuestAgent exChannels = true ∧
    getDomainSupplementaryData exChannels (some exGuestInfo) none [] [exLease] =
      .ok ⟨some "10.0.0.5", some "fedora", some "41"⟩ := by
  refine ⟨by decide, ?_⟩
  rw [(c2_exclusive_source_family exChannels exGuestInfo none [] [exLease]).1
    (by decide)]
  rfl

end Vmmgr
